import Mathlib

/-!
# gobirthday: the scan-and-dispatch engine and its start-up sequence

A shallow embedding of `birthday/birthday.go`.

* The receiver `*GoBirthday` and everything the program can observe from
  outside (log lines, calls made on providers and on the cron) live in a
  `World` that every operation threads through.
* The packages `models` and `providers` and the cron library are not part of
  `birthday.go`.  The contact methods, the outcome of each delivery attempt
  and the verdict of the cron parser are therefore fields of an `Env` over
  which every theorem is universally quantified.
* Every call of `time.Now()` in `birthday.go` is a new reading of the clock:
  `Env.Now k` is what the `k`-th call returns and `World.clock` counts the
  calls made so far.  Two contacts of one scan, and the two calls of line 82
  for one contact, may therefore see different dates.
* Contacts and providers are values: the methods of `models.Contact` only read
  the contact and answer alike throughout one scan, and a provider has no
  access to the unexported fields of the receiver.
* After `Start` has set up the signal handler, the program is two threads, the
  blocked `Start` and the handler goroutine; `Shutdown.step` is their
  interleaving semantics.
-/

namespace Birthday

/-! ## Data model -/

/-- Calendar reading of a `time.Time`: the components the program inspects. -/
structure Time where
  Year : Int
  Month : Nat
  Day : Nat
deriving DecidableEq, Repr

/-- The constant `time.March`. -/
def March : Nat := 3

/-- A `models.Contact`: the two exported fields `Notify` logs, and the birthdate. -/
structure Contact where
  Firstname : String
  Lastname : String
  Birthdate : Time
deriving DecidableEq, Repr

/-- A value of the interface `providers.Provider`.  `Type_` and `Vendor` are the
results of the methods `Type()` and `Vendor()`; `Id` tells apart two backends
that report the same metadata. -/
structure Provider where
  Id : Nat
  Type_ : String
  Vendor : String
deriving DecidableEq, Repr

/-- The struct `GoBirthday` (lines 20-27).  The field `cron` is a pointer to the
scheduler, whose state is kept in `World.cron`. -/
structure GoBirthday where
  contacts : List Contact
  providers : List Provider
  cronExp : String
  handleLeapYears : Bool
  runOnStartup : Bool
deriving DecidableEq, Repr

/-- Everything the program does that can be seen from outside, one constructor
per statement with an effect. -/
inductive Event where
  /-- Lines 53-57, "Birthday to wish !". -/
  | logBirthday (age : Int) (firstname lastname : String)
  /-- Lines 61-64, "Sending the notification". -/
  | logSending (ptype vendor : String)
  /-- Line 65, the call `provider.SendNotification(contact)`. -/
  | sendNotification (provider : Provider) (contact : Contact)
  /-- Lines 67-70, "Error while sending the notification :" with the error. -/
  | logSendError (ptype vendor err : String)
  /-- Lines 74-77, "Successfully sent the notification". -/
  | logSendSuccess (ptype vendor : String)
  /-- Lines 83-87, "Birthday to wish on a leap year !". -/
  | logLeapYear (age : Int) (firstname lastname : String)
  /-- Lines 113-115, "Adding function to the CRON". -/
  | logAddingCron (cronExp : String)
  /-- Line 116, the call `gb.cron.AddFunc(gb.cronExp, gb.Notify)` and the error
  it returned, if any. -/
  | cronAddFunc (cronExp : String) (result : Option String)
  /-- Line 119, "Starting the CRON". -/
  | logStartingCron
  /-- Line 120, the call `gb.cron.Start()`. -/
  | cronStart
  /-- Line 123, `signal.Notify(signalChan, os.Kill, os.Interrupt)`. -/
  | signalNotify
  /-- Line 124, the handler goroutine is launched. -/
  | goHandler
  /-- Line 136, "Waiting for birthdays to wish". -/
  | logWaiting
  /-- Line 126, "Received an interrupt, stopping services...". -/
  | logInterrupt
  /-- Line 128, the call `gb.cron.Stop()`. -/
  | cronStop
  /-- Line 130, "Services stopped". -/
  | logStopped
deriving DecidableEq, Repr

/-- State of the scheduler behind `gb.cron`: the expressions whose callback was
accepted, and whether it is running. -/
structure Cron where
  entries : List String
  running : Bool
deriving DecidableEq, Repr

/-- The program state: the receiver, the scheduler it points to, the effects
produced so far (oldest first), the number of delivery attempts made so far and
the number of calls of `time.Now()` made so far. -/
structure World where
  gb : GoBirthday
  cron : Cron
  trace : List Event
  sent : Nat
  clock : Nat
deriving DecidableEq, Repr

/-- What `birthday.go` imports and does not define.

* `Now k` is the date returned by the `k`-th call of `time.Now()` the process
  makes in `birthday.go` (line 82 makes up to two per contact).
* `IsBirthdayToday`, `IsBornOnLeapYear`, `GetAge` are the methods of
  `models.Contact`.
* `SendNotification k p c` is the result of the `k`-th delivery attempt of the
  process, made on provider `p` for contact `c`: `none` for a nil error,
  `some e` for the error `e`.  Outcomes may thus differ from one attempt to
  the next, also on the same provider.
* `AddFuncError s` is the error, if any, with which the cron rejects the
  schedule expression `s`. -/
structure Env where
  Now : Nat → Time
  IsBirthdayToday : Contact → Bool
  IsBornOnLeapYear : Contact → Bool
  GetAge : Contact → Int
  SendNotification : Nat → Provider → Contact → Option String
  AddFuncError : String → Option String

/-! ## Operations -/

/-- Append one effect to the trace. -/
def World.emit (w : World) (e : Event) : World :=
  { w with trace := w.trace ++ [e] }

/-- `NewGoBirthday` (lines 34-41): no contacts, no providers, a fresh cron. -/
def NewGoBirthday (cronExp : String) (handleLeapYears runOnStartup : Bool) : World :=
  { gb := { contacts := [], providers := [], cronExp := cronExp,
            handleLeapYears := handleLeapYears, runOnStartup := runOnStartup },
    cron := { entries := [], running := false },
    trace := [],
    sent := 0,
    clock := 0 }

/-- The inner loop of `Notify` (lines 60-78) over the providers still to visit. -/
def sendAll (env : Env) (contact : Contact) : List Provider → World → World
  | [], w => w
  | provider :: rest, w =>
    let w1 := w.emit (Event.logSending provider.Type_ provider.Vendor)
    let err := env.SendNotification w1.sent provider contact
    let w2 := { w1.emit (Event.sendNotification provider contact) with sent := w1.sent + 1 }
    match err with
    | some e =>
      -- lines 66-72: report the error, `continue`
      sendAll env contact rest (w2.emit (Event.logSendError provider.Type_ provider.Vendor e))
    | none =>
      -- lines 74-77
      sendAll env contact rest (w2.emit (Event.logSendSuccess provider.Type_ provider.Vendor))

/-- The body of the outer loop of `Notify` (lines 51-88) for one contact.  The
condition of line 82 is evaluated left to right and stops at the first false
operand; each `time.Now()` that is reached reads the clock anew, after the
delivery attempts made for this contact. -/
def notifyContact (env : Env) (contact : Contact) (w : World) : World :=
  let w1 :=
    if env.IsBirthdayToday contact then
      sendAll env contact w.gb.providers
        (w.emit (Event.logBirthday (env.GetAge contact) contact.Firstname contact.Lastname))
    else w
  if w1.gb.handleLeapYears && env.IsBornOnLeapYear contact then
    -- `time.Now().Day() == 1`
    let day := (env.Now w1.clock).Day
    let w2 := { w1 with clock := w1.clock + 1 }
    if day == 1 then
      -- `time.Now().Month() == time.March`
      let month := (env.Now w2.clock).Month
      let w3 := { w2 with clock := w2.clock + 1 }
      if month == March then
        w3.emit (Event.logLeapYear (env.GetAge contact) contact.Firstname contact.Lastname)
      else w3
    else w2
  else w1

/-- The outer loop of `Notify` over the contacts still to visit. -/
def scanContacts (env : Env) : List Contact → World → World
  | [], w => w
  | contact :: rest, w => scanContacts env rest (notifyContact env contact w)

/-- `GoBirthday.Notify` (lines 48-90). -/
def Notify (env : Env) (w : World) : World :=
  scanContacts env w.gb.contacts w

/-- `GoBirthday.NbContacts` (lines 93-95). -/
def NbContacts (gb : GoBirthday) : Nat := gb.contacts.length

/-- `GoBirthday.NbProviders` (lines 98-100). -/
def NbProviders (gb : GoBirthday) : Nat := gb.providers.length

/-- `Cron.AddFunc`: the expression is parsed; on error nothing is registered and
the error is returned, otherwise the callback is scheduled. -/
def Cron.AddFunc (env : Env) (spec : String) (c : Cron) : Cron × Option String :=
  match env.AddFuncError spec with
  | some e => (c, some e)
  | none => ({ c with entries := c.entries ++ [spec] }, none)

/-- `Cron.Start`. -/
def Cron.Start (c : Cron) : Cron := { c with running := true }

/-- `Cron.Stop`. -/
def Cron.Stop (c : Cron) : Cron := { c with running := false }

/-- `GoBirthday.Start` (lines 103-136), up to the point where it blocks on
`<-cleanupDone` (line 138). -/
def Start (env : Env) (w : World) : World :=
  -- lines 108-110
  let w1 := if w.gb.runOnStartup then Notify env w else w
  -- lines 113-116; the value returned by AddFunc is dropped
  let w2 := w1.emit (Event.logAddingCron w1.gb.cronExp)
  let r := w2.cron.AddFunc env w2.gb.cronExp
  let w3 := { w2.emit (Event.cronAddFunc w2.gb.cronExp r.2) with cron := r.1 }
  -- lines 119-120
  let w4 := w3.emit Event.logStartingCron
  let w5 := { w4.emit Event.cronStart with cron := w4.cron.Start }
  -- lines 123-134
  let w6 := w5.emit Event.signalNotify
  let w7 := w6.emit Event.goHandler
  -- line 136
  w7.emit Event.logWaiting

/-! ## Shutdown: the handler goroutine and the blocked `Start` -/

/-- Capacity of `signalChan` (line 104: `make(chan os.Signal, 1)`). -/
def signalChanCap : Nat := 1

/-- Where the handler goroutine (lines 124-134) stands. -/
inductive HandlerPc where
  /-- At `for range signalChan` (line 125), waiting for a signal. -/
  | receiving
  /-- A signal was taken from the channel; lines 126-130 come next. -/
  | stopping
  /-- At `cleanupDone <- true` (line 132). -/
  | sending
deriving DecidableEq, Repr

/-- State of the process once `Start` has reached line 138. -/
structure Shutdown where
  world : World
  /-- Number of signals buffered in `signalChan`. -/
  signalChan : Nat
  handler : HandlerPc
  /-- `Start` is still blocked on `<-cleanupDone`; false once it has returned. -/
  startWaiting : Bool
deriving DecidableEq, Repr

/-- What can happen next. -/
inductive Action where
  /-- The runtime delivers a signal `signalChan` is registered for (line 123).  In
  practice this is `os.Interrupt`: a SIGKILL cannot be caught, ends the process
  at once and never reaches the channel. -/
  | signal
  /-- The handler goroutine takes its next step. -/
  | handler
deriving DecidableEq, Repr

/-- The state in which `Start` blocks at line 138: the channel is empty, the
goroutine is at the head of its loop. -/
def awaitSignals (w : World) : Shutdown :=
  { world := w, signalChan := 0, handler := HandlerPc.receiving, startWaiting := true }

/-- Lines 126-130: the body of the handler loop before the send. -/
def handlerBody (w : World) : World :=
  let w1 := w.emit Event.logInterrupt
  let w2 := { w1.emit Event.cronStop with cron := w1.cron.Stop }
  w2.emit Event.logStopped

/-- One step of the process while it is alive; `none` when the action cannot
take place.  The process may end after any step once `Start` has returned, so
what holds of every reachable state holds of every execution.

* A signal is stored when the channel has room and dropped otherwise (the
  runtime never blocks on the send).
* The goroutine takes a signal when one is buffered; runs lines 126-130; and
  completes `cleanupDone <- true` only when `Start` is receiving, `cleanupDone`
  being unbuffered.  That receive lets `Start` return. -/
def Shutdown.step : Action → Shutdown → Option Shutdown
  | Action.signal, s =>
    some (if s.signalChan < signalChanCap then { s with signalChan := s.signalChan + 1 } else s)
  | Action.handler, s =>
    match s.handler with
    | HandlerPc.receiving =>
      if 0 < s.signalChan then
        some { s with signalChan := s.signalChan - 1, handler := HandlerPc.stopping }
      else none
    | HandlerPc.stopping =>
      some { s with world := handlerBody s.world, handler := HandlerPc.sending }
    | HandlerPc.sending =>
      if s.startWaiting then
        some { s with startWaiting := false, handler := HandlerPc.receiving }
      else none

/-- Run a schedule of actions, left to right. -/
def Shutdown.run : List Action → Shutdown → Option Shutdown
  | [], s => some s
  | a :: rest, s =>
    match s.step a with
    | some s1 => Shutdown.run rest s1
    | none => none

/-! ## Observations on a trace -/

/-- The delivery attempts of a trace, in order: provider and contact of each
call of `SendNotification`. -/
def callsOf (t : List Event) : List (Provider × Contact) :=
  t.filterMap fun e =>
    match e with
    | Event.sendNotification p c => some (p, c)
    | _ => none

/-- The outcome reports of a trace, in order. -/
def reportsOf (t : List Event) : List Event :=
  t.filter fun e =>
    match e with
    | Event.logSendError _ _ _ => true
    | Event.logSendSuccess _ _ => true
    | _ => false

/-- The leap-year notices of a trace, in order. -/
def leapNoticesOf (t : List Event) : List Event :=
  t.filter fun e =>
    match e with
    | Event.logLeapYear _ _ _ => true
    | _ => false

/-- The birthday matches logged in a trace, in order. -/
def matchesOf (t : List Event) : List Event :=
  t.filter fun e =>
    match e with
    | Event.logBirthday _ _ _ => true
    | _ => false

/-- Number of calls of `gb.cron.Stop()` in a trace. -/
def stopCalls (t : List Event) : Nat := t.count Event.cronStop

/-- The report line 70 or line 77 writes for provider `p` after an attempt that
returned `r`. -/
def outcomeReport (p : Provider) (r : Option String) : Event :=
  match r with
  | some e => Event.logSendError p.Type_ p.Vendor e
  | none => Event.logSendSuccess p.Type_ p.Vendor

/-- The condition of line 82 for contact `c`, when its first `time.Now()` is the
`t`-th reading of the clock: the day is taken from reading `t`, the month from
reading `t + 1`. -/
def leapNoticeDue (env : Env) (gb : GoBirthday) (t : Nat) (c : Contact) : Bool :=
  gb.handleLeapYears && env.IsBornOnLeapYear c
    && (env.Now t).Day == 1 && (env.Now (t + 1)).Month == March

/-- Number of readings of the clock line 82 makes for contact `c`: none when the
flag is off or the contact is not born on a leap year, one when the day read is
not 1, two otherwise. -/
def leapReads (env : Env) (gb : GoBirthday) (t : Nat) (c : Contact) : Nat :=
  if gb.handleLeapYears && env.IsBornOnLeapYear c then
    (if (env.Now t).Day == 1 then 2 else 1)
  else 0

/-! ## The contact methods as the specification describes them -/

/-- Modelled from the spec: the methods `IsBirthdayToday`, `IsBornOnLeapYear`
and `GetAge` of `models.Contact` (package `models` is not in `birthday.go`), as
section 4.1 describes them, evaluated at the date `today`; the clock read by
line 82, the delivery outcomes and the cron verdict stay parameters. -/
def specEnv (today : Time) (clock : Nat → Time)
    (send : Nat → Provider → Contact → Option String)
    (addFuncError : String → Option String) : Env :=
  { Now := clock,
    IsBirthdayToday := fun c =>
      c.Birthdate.Month == today.Month && c.Birthdate.Day == today.Day,
    IsBornOnLeapYear := fun c =>
      c.Birthdate.Year % 4 == 0 && (c.Birthdate.Year % 100 != 0 || c.Birthdate.Year % 400 == 0),
    GetAge := fun c =>
      today.Year - c.Birthdate.Year -
        (if today.Month < c.Birthdate.Month
            || (today.Month == c.Birthdate.Month && today.Day < c.Birthdate.Day) then 1 else 0),
    SendNotification := send,
    AddFuncError := addFuncError }

/-! ## The effects of the loops, as lists -/

/-- Events written by the inner loop for contact `c`, the first attempt being
the `k`-th of the process. -/
def dispatchEvents (env : Env) (c : Contact) : Nat → List Provider → List Event
  | _, [] => []
  | k, p :: ps =>
    Event.logSending p.Type_ p.Vendor :: Event.sendNotification p c ::
      outcomeReport p (env.SendNotification k p c) :: dispatchEvents env c (k + 1) ps

/-- Events written by one iteration of the outer loop, begun after `k` delivery
attempts and `t` readings of the clock. -/
def contactEvents (env : Env) (gb : GoBirthday) (k t : Nat) (c : Contact) : List Event :=
  (if env.IsBirthdayToday c then
      Event.logBirthday (env.GetAge c) c.Firstname c.Lastname ::
        dispatchEvents env c k gb.providers
    else []) ++
  (if leapNoticeDue env gb t c then
      [Event.logLeapYear (env.GetAge c) c.Firstname c.Lastname]
    else [])

/-- Delivery attempts made by one iteration of the outer loop. -/
def contactSent (env : Env) (gb : GoBirthday) (c : Contact) : Nat :=
  if env.IsBirthdayToday c then gb.providers.length else 0

/-- Events written by the outer loop over `cs`. -/
def scanEvents (env : Env) (gb : GoBirthday) : Nat → Nat → List Contact → List Event
  | _, _, [] => []
  | k, t, c :: cs =>
    contactEvents env gb k t c ++
      scanEvents env gb (k + contactSent env gb c) (t + leapReads env gb t c) cs

/-- Readings of the clock made once the outer loop has gone over `cs`. -/
def scanClock (env : Env) (gb : GoBirthday) : Nat → List Contact → Nat
  | t, [] => t
  | t, c :: cs => scanClock env gb (t + leapReads env gb t c) cs

/-- Delivery attempts made by the outer loop over `cs`. -/
def scanSent (env : Env) (gb : GoBirthday) : List Contact → Nat
  | [] => 0
  | c :: cs => contactSent env gb c + scanSent env gb cs

/-- The events one run of `Notify` started in `w` adds to the trace. -/
def notifyTrace (env : Env) (w : World) : List Event :=
  (Notify env w).trace.drop w.trace.length

/-- The events the iteration of the outer loop for contact `c`, begun in `w`,
adds to the trace. -/
def iterationTrace (env : Env) (c : Contact) (w : World) : List Event :=
  (notifyContact env c w).trace.drop w.trace.length

/-- The providers on which a trace calls `SendNotification` with contact `c`,
in order. -/
def providersCalledWith (c : Contact) (t : List Event) : List Provider :=
  ((callsOf t).filter fun pc => pc.2 = c).map fun pc => pc.1

/-- The line `Notify` logs on a birthday match. -/
def birthdayLog (env : Env) (c : Contact) : Event :=
  Event.logBirthday (env.GetAge c) c.Firstname c.Lastname

/-- The line `Notify` logs as leap-year notice. -/
def leapYearLog (env : Env) (c : Contact) : Event :=
  Event.logLeapYear (env.GetAge c) c.Firstname c.Lastname


/-! ## Concrete inputs -/

/-- March 1 of a year that is not a leap year. -/
def march1 : Time := { Year := 2023, Month := 3, Day := 1 }

/-- The day before `march1`. -/
def feb28 : Time := { Year := 2023, Month := 2, Day := 28 }

/-- Born on February 29 of a leap year. -/
def alice : Contact :=
  { Firstname := "Alice", Lastname := "Martin", Birthdate := { Year := 1996, Month := 2, Day := 29 } }

/-- Born on March 1 of a leap year. -/
def bob : Contact :=
  { Firstname := "Bob", Lastname := "Durand", Birthdate := { Year := 1996, Month := 3, Day := 1 } }

/-- Born on March 1 of a year that is not a leap year. -/
def carol : Contact :=
  { Firstname := "Carol", Lastname := "Petit", Birthdate := { Year := 1990, Month := 3, Day := 1 } }

def mailer : Provider := { Id := 0, Type_ := "mail", Vendor := "smtp" }

def texter : Provider := { Id := 1, Type_ := "sms", Vendor := "ovh" }

def chatter : Provider := { Id := 2, Type_ := "chat", Vendor := "slack" }

/-- Every attempt succeeds. -/
def allDelivered : Nat → Provider → Contact → Option String :=
  fun _ _ _ => none

/-- Every attempt on `texter` fails, every other attempt succeeds. -/
def texterDown : Nat → Provider → Contact → Option String :=
  fun _ p _ => if p.Id = 1 then some "gateway unreachable" else none

/-- A cron that accepts one expression only. -/
def strictCron : String → Option String :=
  fun s => if s = "0 0 8 * * *" then none else some "invalid schedule expression"

/-- Born on February 28 of a leap year. -/
def xav : Contact :=
  { Firstname := "Xav", Lastname := "Roux", Birthdate := { Year := 1992, Month := 2, Day := 28 } }

/-- March 1, 2023 at every reading of the clock, with `texter` out of order. -/
def envMarch1 : Env := specEnv march1 (fun _ => march1) texterDown strictCron

/-- March 1, 2023 at every reading of the clock, with every backend working. -/
def envMarch1Up : Env := specEnv march1 (fun _ => march1) allDelivered strictCron

/-- A scan begun on February 28, 2023 during which midnight passes: the first
reading of the clock is February 28, every later one March 1. -/
def envMidnight : Env :=
  specEnv feb28 (fun k => if k = 0 then feb28 else march1) allDelivered strictCron

/-- Bob, Xav and Bob again, one provider, leap years handled. -/
def midnightWorld : World :=
  { NewGoBirthday "0 0 8 * * *" true false with
    gb := { contacts := [bob, xav, bob], providers := [mailer],
            cronExp := "0 0 8 * * *", handleLeapYears := true, runOnStartup := false } }

/-- Three contacts, three providers, leap years handled. -/
def sampleWorld : World :=
  { NewGoBirthday "0 0 8 * * *" true true with
    gb := { contacts := [alice, bob, carol], providers := [mailer, texter, chatter],
            cronExp := "0 0 8 * * *", handleLeapYears := true, runOnStartup := true } }

/-- The same receiver later in the life of the process. -/
def sampleWorldLater : World :=
  { sampleWorld with trace := [Event.logWaiting], sent := 7, clock := 4 }

/-- A receiver whose schedule expression the cron rejects. -/
def badScheduleWorld : World := NewGoBirthday "every day at eight" false false

/-- One signal, handled to the end: received, lines 126-130, completion sent. -/
def oneSignal : List Action :=
  [Action.signal, Action.handler, Action.handler, Action.handler]

/-- Two signals: the first is handled up to the send, the second arrives while
the goroutine waits for `Start` to receive, `Start` receives, and the goroutine
goes round its loop once more. -/
def twoSignals : List Action :=
  [Action.signal, Action.handler, Action.handler, Action.signal,
    Action.handler, Action.handler, Action.handler]

/-- The state the schedule `twoSignals` leads to. -/
def afterTwoSignals : Shutdown :=
  { world := handlerBody (handlerBody (Start envMarch1 sampleWorld)),
    signalChan := 0, handler := HandlerPc.sending, startWaiting := false }

/-- Number of `Stop` calls the position of the two threads accounts for: one
once `Start` has been released, one more while the goroutine stands at the
send. -/
def stopsAccounted (s : Shutdown) : Nat :=
  (if s.startWaiting then 0 else 1) + (if s.handler = HandlerPc.sending then 1 else 0)

/-- Signals taken into the channel or beyond: buffered, being handled, or
already answered by a `Stop` call. -/
def signalsTaken (s : Shutdown) : Nat :=
  stopCalls s.world.trace + (if s.handler = HandlerPc.stopping then 1 else 0) + s.signalChan

/-! ## Lemmas: what each loop does to the world -/

@[simp] theorem emit_gb (w : World) (e : Event) : (w.emit e).gb = w.gb := rfl
@[simp] theorem emit_cron (w : World) (e : Event) : (w.emit e).cron = w.cron := rfl
@[simp] theorem emit_sent (w : World) (e : Event) : (w.emit e).sent = w.sent := rfl
@[simp] theorem emit_trace (w : World) (e : Event) : (w.emit e).trace = w.trace ++ [e] := rfl

theorem sendAll_eq (env : Env) (c : Contact) (ps : List Provider) :
    ∀ w : World, sendAll env c ps w =
      { w with trace := w.trace ++ dispatchEvents env c w.sent ps,
               sent := w.sent + ps.length } := by
  induction ps with
  | nil => intro w; simp [sendAll, dispatchEvents]
  | cons p ps ih =>
    intro w
    unfold sendAll
    cases h : env.SendNotification w.sent p c <;>
      simp [h, ih, World.emit, dispatchEvents, outcomeReport, Nat.add_assoc, Nat.add_comm 1]

theorem sendAll_clock (env : Env) (c : Contact) (ps : List Provider) (w : World) :
    (sendAll env c ps w).clock = w.clock := by
  rw [sendAll_eq]

theorem notifyContact_eq (env : Env) (c : Contact) (w : World) :
    notifyContact env c w =
      { w with trace := w.trace ++ contactEvents env w.gb w.sent w.clock c,
               sent := w.sent + contactSent env w.gb c,
               clock := w.clock + leapReads env w.gb w.clock c } := by
  unfold notifyContact contactEvents contactSent leapNoticeDue leapReads
  by_cases hb : env.IsBirthdayToday c = true <;>
    by_cases hf : w.gb.handleLeapYears = true <;>
    by_cases hl : env.IsBornOnLeapYear c = true <;>
    by_cases hd : (env.Now w.clock).Day = 1 <;>
    by_cases hm : (env.Now (w.clock + 1)).Month = March <;>
    simp [hb, hf, hl, hd, hm, sendAll_eq, World.emit, Nat.add_assoc]

theorem scanContacts_eq (env : Env) (cs : List Contact) :
    ∀ w : World, scanContacts env cs w =
      { w with trace := w.trace ++ scanEvents env w.gb w.sent w.clock cs,
               sent := w.sent + scanSent env w.gb cs,
               clock := scanClock env w.gb w.clock cs } := by
  induction cs with
  | nil => intro w; simp [scanContacts, scanEvents, scanSent, scanClock]
  | cons c cs ih =>
    intro w
    simp [scanContacts, scanEvents, scanSent, scanClock, ih, notifyContact_eq, Nat.add_assoc]

theorem Notify_eq (env : Env) (w : World) :
    Notify env w =
      { w with trace := w.trace ++ scanEvents env w.gb w.sent w.clock w.gb.contacts,
               sent := w.sent + scanSent env w.gb w.gb.contacts,
               clock := scanClock env w.gb w.clock w.gb.contacts } :=
  scanContacts_eq env w.gb.contacts w

theorem notifyTrace_eq (env : Env) (w : World) :
    notifyTrace env w = scanEvents env w.gb w.sent w.clock w.gb.contacts := by
  simp [notifyTrace, Notify_eq]

theorem iterationTrace_eq (env : Env) (c : Contact) (w : World) :
    iterationTrace env c w = contactEvents env w.gb w.sent w.clock c := by
  simp [iterationTrace, notifyContact_eq]

theorem callsOf_append (a b : List Event) : callsOf (a ++ b) = callsOf a ++ callsOf b := by
  simp [callsOf]

theorem reportsOf_append (a b : List Event) :
    reportsOf (a ++ b) = reportsOf a ++ reportsOf b := by
  simp [reportsOf]

theorem leapNoticesOf_append (a b : List Event) :
    leapNoticesOf (a ++ b) = leapNoticesOf a ++ leapNoticesOf b := by
  simp [leapNoticesOf]

theorem matchesOf_append (a b : List Event) :
    matchesOf (a ++ b) = matchesOf a ++ matchesOf b := by
  simp [matchesOf]

theorem callsOf_dispatchEvents (env : Env) (c : Contact) (ps : List Provider) :
    ∀ k, callsOf (dispatchEvents env c k ps) = ps.map fun p => (p, c) := by
  induction ps with
  | nil => intro k; rfl
  | cons p ps ih =>
    intro k
    have h := ih (k + 1)
    unfold callsOf at h ⊢
    cases hs : env.SendNotification k p c <;>
      simp [dispatchEvents, outcomeReport, hs, h]

theorem reportsOf_dispatchEvents (env : Env) (c : Contact) (ps : List Provider) :
    ∀ k, reportsOf (dispatchEvents env c k ps) =
      (List.enumFrom k ps).map fun kp => outcomeReport kp.2 (env.SendNotification kp.1 kp.2 c) := by
  induction ps with
  | nil => intro k; rfl
  | cons p ps ih =>
    intro k
    have h := ih (k + 1)
    unfold reportsOf at h ⊢
    cases hs : env.SendNotification k p c <;>
      simp [dispatchEvents, outcomeReport, hs, h, List.enumFrom_cons]

theorem leapNoticesOf_dispatchEvents (env : Env) (c : Contact) (ps : List Provider) :
    ∀ k, leapNoticesOf (dispatchEvents env c k ps) = [] := by
  induction ps with
  | nil => intro k; rfl
  | cons p ps ih =>
    intro k
    have h := ih (k + 1)
    unfold leapNoticesOf at h ⊢
    cases hs : env.SendNotification k p c <;>
      simp [dispatchEvents, outcomeReport, hs, h]

theorem matchesOf_dispatchEvents (env : Env) (c : Contact) (ps : List Provider) :
    ∀ k, matchesOf (dispatchEvents env c k ps) = [] := by
  induction ps with
  | nil => intro k; rfl
  | cons p ps ih =>
    intro k
    have h := ih (k + 1)
    unfold matchesOf at h ⊢
    cases hs : env.SendNotification k p c <;>
      simp [dispatchEvents, outcomeReport, hs, h]

theorem callsOf_contactEvents (env : Env) (gb : GoBirthday) (k t : Nat) (c : Contact) :
    callsOf (contactEvents env gb k t c) =
      if env.IsBirthdayToday c then gb.providers.map fun p => (p, c) else [] := by
  unfold contactEvents
  rw [callsOf_append]
  by_cases hb : env.IsBirthdayToday c = true <;> by_cases hl : leapNoticeDue env gb t c = true
  · simp only [hb, hl, if_true]
    rw [← List.singleton_append, callsOf_append, callsOf_dispatchEvents]
    simp [callsOf]
  · simp only [hb, hl, if_true]
    rw [← List.singleton_append, callsOf_append, callsOf_dispatchEvents]
    simp [callsOf]
  · simp [hb, hl, callsOf]
  · simp [hb, hl, callsOf]

theorem callsOf_scanEvents (env : Env) (gb : GoBirthday) (cs : List Contact) :
    ∀ k t, callsOf (scanEvents env gb k t cs) =
      (cs.filter env.IsBirthdayToday).flatMap fun c => gb.providers.map fun p => (p, c) := by
  induction cs with
  | nil => intro k t; rfl
  | cons c cs ih =>
    intro k t
    simp only [scanEvents, callsOf_append, callsOf_contactEvents, ih]
    by_cases hb : env.IsBirthdayToday c = true <;> simp [hb, List.filter_cons]

theorem leapNoticesOf_contactEvents (env : Env) (gb : GoBirthday) (k t : Nat) (c : Contact) :
    leapNoticesOf (contactEvents env gb k t c) =
      if leapNoticeDue env gb t c then [leapYearLog env c] else [] := by
  unfold contactEvents
  rw [leapNoticesOf_append]
  by_cases hb : env.IsBirthdayToday c = true <;> by_cases hl : leapNoticeDue env gb t c = true
  · simp only [hb, hl, if_true]
    rw [← List.singleton_append, leapNoticesOf_append, leapNoticesOf_dispatchEvents]
    simp [leapNoticesOf, leapYearLog]
  · simp only [hb, hl, if_true]
    rw [← List.singleton_append, leapNoticesOf_append, leapNoticesOf_dispatchEvents]
    simp [leapNoticesOf]
  · simp [hb, hl, leapNoticesOf, leapYearLog]
  · simp [hb, hl, leapNoticesOf]

theorem leapNoticesOf_scanEvents_sameDate (env : Env) (gb : GoBirthday) (today : Time)
    (cs : List Contact) :
    ∀ k t, (∀ j, t ≤ j → env.Now j = today) →
      leapNoticesOf (scanEvents env gb k t cs) =
        (cs.filter fun c =>
          gb.handleLeapYears && env.IsBornOnLeapYear c
            && today.Day == 1 && today.Month == March).map (leapYearLog env) := by
  induction cs with
  | nil => intro k t _; rfl
  | cons c cs ih =>
    intro k t hnow
    have ht : env.Now t = today := hnow t (Nat.le_refl t)
    have ht1 : env.Now (t + 1) = today := hnow (t + 1) (Nat.le_succ t)
    have hrest := ih (k + contactSent env gb c) (t + leapReads env gb t c)
      (fun j hj => hnow j (Nat.le_trans (Nat.le_add_right _ _) hj))
    simp only [scanEvents, leapNoticesOf_append, leapNoticesOf_contactEvents, hrest]
    have hdue : leapNoticeDue env gb t c =
        (gb.handleLeapYears && env.IsBornOnLeapYear c
          && today.Day == 1 && today.Month == March) := by
      simp [leapNoticeDue, ht, ht1]
    rw [hdue]
    cases hl : (gb.handleLeapYears && env.IsBornOnLeapYear c
        && today.Day == 1 && today.Month == March)
    · rw [List.filter_cons_of_neg (by simp only [hl]; exact Bool.false_ne_true)]
      simp
    · rw [List.filter_cons_of_pos (by simp only [hl])]
      simp

theorem matchesOf_contactEvents (env : Env) (gb : GoBirthday) (k t : Nat) (c : Contact) :
    matchesOf (contactEvents env gb k t c) =
      if env.IsBirthdayToday c then [birthdayLog env c] else [] := by
  unfold contactEvents
  rw [matchesOf_append]
  by_cases hb : env.IsBirthdayToday c = true <;> by_cases hl : leapNoticeDue env gb t c = true
  · simp only [hb, hl, if_true]
    rw [← List.singleton_append, matchesOf_append, matchesOf_dispatchEvents]
    simp [matchesOf, birthdayLog]
  · simp only [hb, hl, if_true]
    rw [← List.singleton_append, matchesOf_append, matchesOf_dispatchEvents]
    simp [matchesOf, birthdayLog]
  · simp [hb, hl, matchesOf]
  · simp [hb, hl, matchesOf]

theorem matchesOf_scanEvents (env : Env) (gb : GoBirthday) (cs : List Contact) :
    ∀ k t, matchesOf (scanEvents env gb k t cs) =
      (cs.filter env.IsBirthdayToday).map (birthdayLog env) := by
  induction cs with
  | nil => intro k t; rfl
  | cons c cs ih =>
    intro k t
    simp only [scanEvents, matchesOf_append, matchesOf_contactEvents, ih]
    by_cases hb : env.IsBirthdayToday c = true <;> simp [hb, List.filter_cons]

theorem reportsOf_contactEvents (env : Env) (gb : GoBirthday) (k t : Nat) (c : Contact)
    (hb : env.IsBirthdayToday c = true) :
    reportsOf (contactEvents env gb k t c) =
      (List.enumFrom k gb.providers).map fun kp =>
        outcomeReport kp.2 (env.SendNotification kp.1 kp.2 c) := by
  unfold contactEvents
  rw [reportsOf_append]
  simp only [hb, if_true]
  rw [← List.singleton_append, reportsOf_append, reportsOf_dispatchEvents]
  by_cases hl : leapNoticeDue env gb t c = true <;> simp [hl, reportsOf]

theorem scanContacts_gb (env : Env) (cs : List Contact) (w : World) :
    (scanContacts env cs w).gb = w.gb := by
  rw [scanContacts_eq]

theorem scanContacts_append (env : Env) (pre post : List Contact) :
    ∀ w, scanContacts env (pre ++ post) w = scanContacts env post (scanContacts env pre w) := by
  induction pre with
  | nil => intro w; rfl
  | cons c pre ih => intro w; simp [scanContacts, ih]

theorem scanEvents_append (env : Env) (gb : GoBirthday) (pre post : List Contact) :
    ∀ k t, scanEvents env gb k t (pre ++ post) =
      scanEvents env gb k t pre ++
        scanEvents env gb (k + scanSent env gb pre) (scanClock env gb t pre) post := by
  induction pre with
  | nil => intro k t; simp [scanEvents, scanSent, scanClock]
  | cons c pre ih =>
    intro k t
    simp [scanEvents, scanSent, scanClock, ih, Nat.add_assoc]

theorem iterationTrace_sub (env : Env) (w : World) (pre post : List Contact) (c : Contact)
    (hc : w.gb.contacts = pre ++ c :: post) :
    ∀ e ∈ iterationTrace env c (scanContacts env pre w), e ∈ notifyTrace env w := by
  intro e he
  rw [iterationTrace_eq, scanContacts_eq] at he
  rw [notifyTrace_eq, hc, scanEvents_append]
  simp only [scanEvents, List.mem_append]
  exact Or.inr (Or.inl he)

theorem pairs_filter_self (c : Contact) (ps : List Provider) :
    (((ps.map fun p => (p, c)).filter fun pc => pc.2 = c).map fun pc => pc.1) = ps := by
  induction ps with
  | nil => rfl
  | cons p ps ihp => simp [List.filter_cons, ihp]

theorem pairs_filter_other (c d : Contact) (hd : d ≠ c) (ps : List Provider) :
    ((ps.map fun p => (p, d)).filter fun pc => pc.2 = c) = [] := by
  induction ps with
  | nil => rfl
  | cons p ps ihp => simp [List.filter_cons, hd, ihp]

theorem providersCalled_scan (env : Env) (ps : List Provider) (c : Contact)
    (hm : env.IsBirthdayToday c = true) (cs : List Contact) :
    (((cs.filter env.IsBirthdayToday).flatMap fun d => ps.map fun p => (p, d)).filter
        fun pc => pc.2 = c).map (fun pc => pc.1) =
      (List.replicate (cs.count c) ps).flatten := by
  induction cs with
  | nil => rfl
  | cons d cs ih =>
    by_cases hd : d = c
    · subst hd
      simp only [List.filter_cons, hm, if_true, List.flatMap_cons, List.filter_append,
        List.map_append, ih, List.count_cons_self, List.replicate_succ, List.flatten_cons,
        pairs_filter_self]
    · have hne : (d == c) = false := by simpa using hd
      by_cases hb : env.IsBirthdayToday d = true
      · simp only [List.filter_cons, hb, if_true, List.flatMap_cons, List.filter_append,
          List.map_append, ih, List.count_cons, hne, pairs_filter_other c d hd]
        simp
      · simp [List.filter_cons, hb, ih, List.count_cons, hne]

theorem mem_callsOf (p : Provider) (c : Contact) (t : List Event) :
    (p, c) ∈ callsOf t ↔ Event.sendNotification p c ∈ t := by
  unfold callsOf
  rw [List.mem_filterMap]
  constructor
  · rintro ⟨e, he, h⟩
    cases e <;> simp at h
    obtain ⟨h1, h2⟩ := h
    subst h1; subst h2
    exact he
  · intro h
    exact ⟨_, h, rfl⟩

theorem callsOf_notifyTrace (env : Env) (w : World) :
    callsOf (notifyTrace env w) =
      (w.gb.contacts.filter env.IsBirthdayToday).flatMap fun c =>
        w.gb.providers.map fun p => (p, c) := by
  rw [notifyTrace_eq, callsOf_scanEvents]

theorem Notify_trace (env : Env) (w : World) :
    (Notify env w).trace = w.trace ++ notifyTrace env w := by
  rw [notifyTrace_eq, Notify_eq]

/-! ## The claims -/

/-- C1 (dispatch isolation).  For a contact `c` whose birthday is today, whatever
each delivery attempt returns, one run of `Notify` calls `SendNotification` with
`c` on the registered providers, in registration order, once for each time `c`
stands in the contact list: no provider is skipped after a failure and none is
tried again.  For a contact listed once the providers called with it are exactly
the provider list. -/
theorem Notify_dispatch_isolation (env : Env) (w : World) (c : Contact)
    (hm : env.IsBirthdayToday c = true) :
    providersCalledWith c (notifyTrace env w) =
        (List.replicate (w.gb.contacts.count c) w.gb.providers).flatten ∧
      (w.gb.contacts.count c = 1 →
        providersCalledWith c (notifyTrace env w) = w.gb.providers) := by
  have h : providersCalledWith c (notifyTrace env w) =
      (List.replicate (w.gb.contacts.count c) w.gb.providers).flatten := by
    unfold providersCalledWith
    rw [callsOf_notifyTrace]
    exact providersCalled_scan env w.gb.providers c hm w.gb.contacts
  refine ⟨h, fun h1 => ?_⟩
  rw [h, h1]
  simp

/-- C2 (scan order).  The calls of `SendNotification` made by one run of `Notify`
are, in order, those obtained by going through the contacts whose birthday is
today in list order and, for each of them, through the providers in
registration order; the outcomes of the attempts play no part. -/
theorem Notify_scan_order (env : Env) (w : World) :
    callsOf (Notify env w).trace =
      callsOf w.trace ++
        (w.gb.contacts.filter env.IsBirthdayToday).flatMap fun c =>
          w.gb.providers.map fun p => (p, c) := by
  rw [Notify_trace, callsOf_append, callsOf_notifyTrace]

/-- Witness of C1: on March 1, 2023 Bob, listed once, is notified through the
three providers although the second one fails. -/
theorem Notify_dispatch_isolation_witness :
    envMarch1.IsBirthdayToday bob = true ∧
      providersCalledWith bob (notifyTrace envMarch1 sampleWorld) = [mailer, texter, chatter] :=
  ⟨by decide, (Notify_dispatch_isolation envMarch1 sampleWorld bob (by decide)).2 (by decide)⟩

/-- C3 (outcome reporting).  Let `c` stand in the contact list after `pre` and
before `post`, with its birthday today.  `Notify` is the scan of `pre`, then the
iteration for `c`, then the scan of `post`; the outcome reports written during
the iteration for `c` are, in registration order, one per provider: the failure
report with the returned error when the attempt returned an error, the success
report when it returned none.  With three providers of which the first and the
third always succeed and the second always fails, the reports are success,
failure, success. -/
theorem Notify_outcome_reports (env : Env) (w : World) (pre post : List Contact) (c : Contact)
    (hc : w.gb.contacts = pre ++ c :: post) (hm : env.IsBirthdayToday c = true) :
    Notify env w =
        scanContacts env post (notifyContact env c (scanContacts env pre w)) ∧
      reportsOf ((notifyContact env c (scanContacts env pre w)).trace.drop
          (scanContacts env pre w).trace.length) =
        (List.enumFrom (scanContacts env pre w).sent w.gb.providers).map (fun kp =>
          outcomeReport kp.2 (env.SendNotification kp.1 kp.2 c)) ∧
      (∀ p1 p2 p3 : Provider, w.gb.providers = [p1, p2, p3] →
        (∀ k, env.SendNotification k p1 c = none) →
        (∀ k, env.SendNotification k p2 c ≠ none) →
        (∀ k, env.SendNotification k p3 c = none) →
        ∃ e, reportsOf ((notifyContact env c (scanContacts env pre w)).trace.drop
            (scanContacts env pre w).trace.length) =
          [Event.logSendSuccess p1.Type_ p1.Vendor, Event.logSendError p2.Type_ p2.Vendor e,
            Event.logSendSuccess p3.Type_ p3.Vendor]) := by
  have hrep : reportsOf ((notifyContact env c (scanContacts env pre w)).trace.drop
        (scanContacts env pre w).trace.length) =
      (List.enumFrom (scanContacts env pre w).sent w.gb.providers).map (fun kp =>
        outcomeReport kp.2 (env.SendNotification kp.1 kp.2 c)) := by
    rw [notifyContact_eq]
    simp only [List.drop_left]
    rw [reportsOf_contactEvents env _ _ _ c hm, scanContacts_gb]
  refine ⟨?_, hrep, ?_⟩
  · unfold Notify
    rw [hc, scanContacts_append]
    rfl
  · intro p1 p2 p3 hps h1 h2 h3
    rw [hrep, hps]
    cases h : env.SendNotification ((scanContacts env pre w).sent + 1) p2 c with
    | none => exact absurd h (h2 _)
    | some e =>
      refine ⟨e, ?_⟩
      simp [List.enumFrom_cons, outcomeReport, h1, h3, h]

/-- Witness of C3: Bob, second of three contacts, three providers, the middle
one out of order. -/
theorem Notify_outcome_reports_witness :
    sampleWorld.gb.contacts = [alice] ++ bob :: [carol] ∧
      envMarch1.IsBirthdayToday bob = true ∧
      ∃ e, reportsOf ((notifyContact envMarch1 bob (scanContacts envMarch1 [alice]
            sampleWorld)).trace.drop (scanContacts envMarch1 [alice] sampleWorld).trace.length) =
        [Event.logSendSuccess mailer.Type_ mailer.Vendor,
          Event.logSendError texter.Type_ texter.Vendor e,
          Event.logSendSuccess chatter.Type_ chatter.Vendor] :=
  ⟨rfl, by decide,
    (Notify_outcome_reports envMarch1 sampleWorld [alice] [carol] bob rfl (by decide)).2.2
      mailer texter chatter rfl (fun _ => rfl) (fun _ h => Option.noConfusion h) (fun _ => rfl)⟩

/-- C4 (the leap-year branch is observability-only).  For a contact `c` whose
birthday is not today, one run of `Notify` makes no call of `SendNotification`
with `c`, on any provider; this also holds when `c` stands in the list (after
`pre`, before `post`) and the condition of the leap-year notice is met when the
loop checks it for `c`, in which case the notice is logged. -/
theorem Notify_leap_branch_no_dispatch (env : Env) (w : World) (c : Contact)
    (hf : env.IsBirthdayToday c = false) :
    providersCalledWith c (notifyTrace env w) = [] ∧
      (∀ p, Event.sendNotification p c ∉ notifyTrace env w) ∧
      (∀ pre post, w.gb.contacts = pre ++ c :: post →
        leapNoticeDue env w.gb (scanContacts env pre w).clock c = true →
        leapYearLog env c ∈ notifyTrace env w) := by
  have hno : ∀ p, Event.sendNotification p c ∉ notifyTrace env w := by
    intro p hp
    rw [← mem_callsOf, callsOf_notifyTrace, List.mem_flatMap] at hp
    obtain ⟨d, hd, hpd⟩ := hp
    rw [List.mem_map] at hpd
    obtain ⟨q, _, hq⟩ := hpd
    have hdc : d = c := (Prod.mk.inj hq).2
    rw [List.mem_filter, hdc, hf] at hd
    exact Bool.noConfusion hd.2
  refine ⟨?_, hno, ?_⟩
  · unfold providersCalledWith
    rw [List.map_eq_nil_iff, List.filter_eq_nil_iff]
    rintro ⟨p, d⟩ hpd hd
    have hdc : d = c := by simpa using hd
    subst hdc
    exact hno p ((mem_callsOf p d _).mp hpd)
  · intro pre post hc hl
    refine iterationTrace_sub env w pre post c hc _ ?_
    rw [iterationTrace_eq, scanContacts_gb]
    simp [contactEvents, hl, leapYearLog]

/-- Witness of C4: Alice, born on February 29, 1996, first in the list, on
March 1, 2023 with leap years handled: the notice is logged and no provider is
called with her. -/
theorem Notify_leap_branch_no_dispatch_witness :
    envMarch1.IsBirthdayToday alice = false ∧
      sampleWorld.gb.contacts = [] ++ alice :: [bob, carol] ∧
      leapNoticeDue envMarch1 sampleWorld.gb
        (scanContacts envMarch1 [] sampleWorld).clock alice = true ∧
      providersCalledWith alice (notifyTrace envMarch1 sampleWorld) = [] ∧
      leapYearLog envMarch1 alice ∈ notifyTrace envMarch1 sampleWorld :=
  ⟨by decide, rfl, by decide,
    (Notify_leap_branch_no_dispatch envMarch1 sampleWorld alice (by decide)).1,
    (Notify_leap_branch_no_dispatch envMarch1 sampleWorld alice (by decide)).2.2
      [] [bob, carol] rfl (by decide)⟩

/-- C5 (leap-year notice condition).  Let `c` stand in the contact list after
`pre` and before `post`.  `Notify` is the scan of `pre`, then the iteration for
`c`, then the scan of `post`, and the events of that iteration are part of the
run.  During the iteration for `c` the leap-year notice is written exactly once
when the flag is set, `IsBornOnLeapYear` holds for `c`, the day read by the
first `time.Now()` of line 82 is 1 and the month read by the second is March,
and not at all otherwise; when the first reading gives the date `today` and the
second falls in the same month, that is: exactly once when the flag is set, `c`
is born on a leap year and `today` is March 1.  Neither `IsBirthdayToday` nor the birthdate enters the condition: a
contact whose birthday is today and for which the notice is due gets, in its
iteration, the birthday line, a delivery attempt on every provider and the
notice.  When every reading of the clock during the scan gives the same date,
the notices of the whole run are, in list order, one per listed contact that
meets the condition. -/
theorem Notify_leap_notice_condition (env : Env) (w : World) (pre post : List Contact)
    (c : Contact) (hc : w.gb.contacts = pre ++ c :: post) :
    Notify env w =
        scanContacts env post (notifyContact env c (scanContacts env pre w)) ∧
      (∀ e ∈ iterationTrace env c (scanContacts env pre w), e ∈ notifyTrace env w) ∧
      leapNoticesOf (iterationTrace env c (scanContacts env pre w)) =
        (if w.gb.handleLeapYears && env.IsBornOnLeapYear c
              && (env.Now (scanContacts env pre w).clock).Day == 1
              && (env.Now ((scanContacts env pre w).clock + 1)).Month == March then
            [Event.logLeapYear (env.GetAge c) c.Firstname c.Lastname]
          else []) ∧
      (∀ today : Time, env.Now (scanContacts env pre w).clock = today →
        (env.Now ((scanContacts env pre w).clock + 1)).Month = today.Month →
        leapNoticesOf (iterationTrace env c (scanContacts env pre w)) =
          (if w.gb.handleLeapYears && env.IsBornOnLeapYear c
                && today.Day == 1 && today.Month == March then
              [Event.logLeapYear (env.GetAge c) c.Firstname c.Lastname]
            else [])) ∧
      (env.IsBirthdayToday c = true →
        leapNoticeDue env w.gb (scanContacts env pre w).clock c = true →
        birthdayLog env c ∈ iterationTrace env c (scanContacts env pre w) ∧
          (∀ p ∈ w.gb.providers,
            Event.sendNotification p c ∈ iterationTrace env c (scanContacts env pre w)) ∧
          leapYearLog env c ∈ iterationTrace env c (scanContacts env pre w)) ∧
      (∀ today : Time, (∀ k, w.clock ≤ k → env.Now k = today) →
        leapNoticesOf (notifyTrace env w) =
          (w.gb.contacts.filter fun d =>
            w.gb.handleLeapYears && env.IsBornOnLeapYear d
              && today.Day == 1 && today.Month == March).map
            (fun d => Event.logLeapYear (env.GetAge d) d.Firstname d.Lastname)) := by
  have hexact : leapNoticesOf (iterationTrace env c (scanContacts env pre w)) =
      (if w.gb.handleLeapYears && env.IsBornOnLeapYear c
            && (env.Now (scanContacts env pre w).clock).Day == 1
            && (env.Now ((scanContacts env pre w).clock + 1)).Month == March then
          [Event.logLeapYear (env.GetAge c) c.Firstname c.Lastname]
        else []) := by
    rw [iterationTrace_eq, leapNoticesOf_contactEvents, scanContacts_gb]
    rfl
  refine ⟨?_, iterationTrace_sub env w pre post c hc, hexact, ?_, ?_, ?_⟩
  · unfold Notify
    rw [hc, scanContacts_append]
    rfl
  · intro today h0 h1
    rw [hexact, h0, h1]
  · intro hb hl
    rw [iterationTrace_eq, scanContacts_gb]
    refine ⟨?_, ?_, ?_⟩
    · simp [contactEvents, hb, birthdayLog]
    · intro p hp
      rw [← mem_callsOf, callsOf_contactEvents, if_pos hb]
      exact List.mem_map.mpr ⟨p, hp, rfl⟩
    · simp [contactEvents, hl, leapYearLog]
  · intro today hnow
    rw [notifyTrace_eq, leapNoticesOf_scanEvents_sameDate env w.gb today _ _ _ hnow]
    rfl

/-- Witness of C5: a scan begun on February 28, 2023 during which midnight
passes.  Xav, born on February 28, 1992, second in the list, has his birthday
and is checked once the clock reads March 1: birthday line, delivery attempt
and leap-year notice all belong to his iteration. -/
theorem Notify_leap_notice_condition_witness :
    midnightWorld.gb.contacts = [bob] ++ xav :: [bob] ∧
      envMidnight.IsBirthdayToday xav = true ∧
      leapNoticeDue envMidnight midnightWorld.gb
        (scanContacts envMidnight [bob] midnightWorld).clock xav = true ∧
      birthdayLog envMidnight xav ∈
        iterationTrace envMidnight xav (scanContacts envMidnight [bob] midnightWorld) ∧
      (∀ p ∈ midnightWorld.gb.providers, Event.sendNotification p xav ∈
        iterationTrace envMidnight xav (scanContacts envMidnight [bob] midnightWorld)) ∧
      leapYearLog envMidnight xav ∈
        iterationTrace envMidnight xav (scanContacts envMidnight [bob] midnightWorld) :=
  ⟨rfl, by decide, by decide,
    (Notify_leap_notice_condition envMidnight midnightWorld [bob] [bob] xav rfl).2.2.2.2.1
      (by decide) (by decide)⟩

/-- The scan that crosses midnight, as a whole: Bob is checked while the clock
still reads February 28 and gets no notice; Xav and the second Bob are checked
once it reads March 1 and get one each. -/
theorem midnight_scan_notices :
    leapNoticesOf (notifyTrace envMidnight midnightWorld) =
      [leapYearLog envMidnight xav, leapYearLog envMidnight bob] := by
  decide

/-- C9 (scan determinism).  Two runs of `Notify` on the same receiver, with
contact methods that answer alike, log the same matches and make the same
sequence of calls of `SendNotification`, whatever each attempt returns in
either run and whatever happened before either run. -/
theorem Notify_scan_determinism (env1 env2 : Env) (w1 w2 : World)
    (hgb : w1.gb = w2.gb)
    (hb : env1.IsBirthdayToday = env2.IsBirthdayToday)
    (ha : env1.GetAge = env2.GetAge) :
    w1.gb.contacts.filter env1.IsBirthdayToday = w2.gb.contacts.filter env2.IsBirthdayToday ∧
      matchesOf (notifyTrace env1 w1) = matchesOf (notifyTrace env2 w2) ∧
      callsOf (notifyTrace env1 w1) = callsOf (notifyTrace env2 w2) := by
  refine ⟨by rw [hgb, hb], ?_, ?_⟩
  · rw [notifyTrace_eq, notifyTrace_eq, matchesOf_scanEvents, matchesOf_scanEvents, hgb, hb]
    unfold birthdayLog
    rw [ha]
  · rw [callsOf_notifyTrace, callsOf_notifyTrace, hgb, hb]

/-- Witness of C9: the same receiver on March 1, 2023, once with every backend
working, once later in the process with one backend out of order. -/
theorem Notify_scan_determinism_witness :
    matchesOf (notifyTrace envMarch1Up sampleWorld) =
        matchesOf (notifyTrace envMarch1 sampleWorldLater) ∧
      callsOf (notifyTrace envMarch1Up sampleWorld) =
        callsOf (notifyTrace envMarch1 sampleWorldLater) :=
  (Notify_scan_determinism envMarch1Up envMarch1 sampleWorld sampleWorldLater rfl rfl rfl).2

/-- C10 (a scan leaves the receiver unchanged).  One run of `Notify` leaves the
contact list, the provider list, the cron expression and both flags as they
were, and the scheduler untouched; `NbContacts` and `NbProviders` return the
same values after it as before. -/
theorem Notify_leaves_state_unchanged (env : Env) (w : World) :
    (Notify env w).gb.contacts = w.gb.contacts ∧
      (Notify env w).gb.providers = w.gb.providers ∧
      (Notify env w).gb.cronExp = w.gb.cronExp ∧
      (Notify env w).gb.handleLeapYears = w.gb.handleLeapYears ∧
      (Notify env w).gb.runOnStartup = w.gb.runOnStartup ∧
      (Notify env w).cron = w.cron ∧
      NbContacts (Notify env w).gb = NbContacts w.gb ∧
      NbProviders (Notify env w).gb = NbProviders w.gb := by
  have h : (Notify env w).gb = w.gb := scanContacts_gb env w.gb.contacts w
  have hcron : (Notify env w).cron = w.cron := by rw [Notify_eq]
  rw [h]
  exact ⟨rfl, rfl, rfl, rfl, rfl, hcron, rfl, rfl⟩

theorem dispatchEvents_kind (env : Env) (c : Contact) (e : Event) (ps : List Provider) :
    ∀ k, e ∈ dispatchEvents env c k ps →
      e ≠ Event.cronStart ∧ e ≠ Event.cronStop ∧ ∀ x r, e ≠ Event.cronAddFunc x r := by
  induction ps with
  | nil => intro k h; cases h
  | cons p ps ih =>
    intro k h
    simp only [dispatchEvents, List.mem_cons] at h
    rcases h with h | h | h | h
    · subst h; simp
    · subst h; simp
    · subst h; cases env.SendNotification k p c <;> simp [outcomeReport]
    · exact ih _ h

theorem scanEvents_kind (env : Env) (gb : GoBirthday) (e : Event) (cs : List Contact) :
    ∀ k t, e ∈ scanEvents env gb k t cs →
      e ≠ Event.cronStart ∧ e ≠ Event.cronStop ∧ ∀ x r, e ≠ Event.cronAddFunc x r := by
  induction cs with
  | nil => intro k t h; cases h
  | cons c cs ih =>
    intro k t h
    simp only [scanEvents, contactEvents, List.mem_append] at h
    rcases h with (h | h) | h
    · by_cases hb : env.IsBirthdayToday c = true
      · simp only [hb, if_true, List.mem_cons] at h
        rcases h with h | h
        · subst h; simp
        · exact dispatchEvents_kind env c e _ _ h
      · simp [hb] at h
    · by_cases hl : leapNoticeDue env gb t c = true
      · simp only [hl, if_true, List.mem_singleton] at h
        subst h; simp
      · simp [hl] at h
    · exact ih _ _ h

/-- C8 (start-up run).  The effects of `Start`, up to the point where it waits for
signals, are: the events of exactly one run of `Notify` when `runOnStartup` is
set and none when it is not; then the registration of `Notify` with the cron;
then the start of the cron; then the installation of the signal handler.  No
event of the scan is a cron registration or a cron start, so the scan lies
wholly before both, and the delivery attempts `Start` has made are those of
that one scan. -/
theorem Start_startup_run (env : Env) (w : World) :
    (Start env w).trace =
        w.trace ++ (if w.gb.runOnStartup then notifyTrace env w else []) ++
          [Event.logAddingCron w.gb.cronExp,
            Event.cronAddFunc w.gb.cronExp (env.AddFuncError w.gb.cronExp),
            Event.logStartingCron, Event.cronStart,
            Event.signalNotify, Event.goHandler, Event.logWaiting] ∧
      (Start env w).sent = (if w.gb.runOnStartup then (Notify env w).sent else w.sent) ∧
      (∀ e ∈ notifyTrace env w, e ≠ Event.cronStart ∧ ∀ x r, e ≠ Event.cronAddFunc x r) := by
  refine ⟨?_, ?_, ?_⟩
  · cases hr : w.gb.runOnStartup <;> cases ha : env.AddFuncError w.gb.cronExp <;>
      simp [Start, hr, ha, Cron.AddFunc, Cron.Start, World.emit, Notify_eq, notifyTrace_eq]
  · cases hr : w.gb.runOnStartup <;> cases ha : env.AddFuncError w.gb.cronExp <;>
      simp [Start, hr, ha, Cron.AddFunc, Cron.Start, World.emit, Notify_eq]
  · intro e he
    rw [notifyTrace_eq] at he
    have h := scanEvents_kind env w.gb e _ _ _ he
    exact ⟨h.1, h.2.2⟩

/-- C6, evaluated on the code: with the schedule expression "every day at eight",
which the cron rejects, `Start` drops the error returned by `AddFunc`, registers
nothing, starts the cron all the same and goes on to wait for signals. -/
theorem Start_with_rejected_schedule :
    envMarch1.AddFuncError badScheduleWorld.gb.cronExp = some "invalid schedule expression" ∧
      (Start envMarch1 badScheduleWorld).trace =
        [Event.logAddingCron "every day at eight",
          Event.cronAddFunc "every day at eight" (some "invalid schedule expression"),
          Event.logStartingCron, Event.cronStart,
          Event.signalNotify, Event.goHandler, Event.logWaiting] ∧
      (Start envMarch1 badScheduleWorld).cron = { entries := [], running := true } := by
  decide

theorem stopCalls_handlerBody (w : World) :
    stopCalls (handlerBody w).trace = stopCalls w.trace + 1 := by
  simp [handlerBody, stopCalls, World.emit, List.count_append]

theorem step_accounted (a : Action) (s s1 : Shutdown) (h : s.step a = some s1) :
    stopCalls s1.world.trace + stopsAccounted s = stopCalls s.world.trace + stopsAccounted s1 := by
  cases a with
  | signal =>
    simp only [Shutdown.step, Option.some.injEq] at h
    subst h
    by_cases hc : s.signalChan < signalChanCap <;> simp [hc, stopsAccounted]
  | handler =>
    unfold Shutdown.step at h
    cases hp : s.handler with
    | receiving =>
      simp only [hp] at h
      by_cases hc : 0 < s.signalChan
      · simp only [hc, if_true, Option.some.injEq] at h
        subst h
        simp [stopsAccounted, hp]
      · simp [hc] at h
    | stopping =>
      simp only [hp, Option.some.injEq] at h
      subst h
      simp only [stopsAccounted, hp, stopCalls_handlerBody]
      simp
      omega
    | sending =>
      simp only [hp] at h
      by_cases hw : s.startWaiting = true
      · simp only [hw, if_true, Option.some.injEq] at h
        subst h
        simp [stopsAccounted, hp, hw]
      · simp [hw] at h

theorem step_taken (a : Action) (s s1 : Shutdown) (h : s.step a = some s1) :
    signalsTaken s1 ≤ signalsTaken s + (if a = Action.signal then 1 else 0) := by
  cases a with
  | signal =>
    simp only [Shutdown.step, Option.some.injEq] at h
    subst h
    by_cases hc : s.signalChan < signalChanCap <;> simp [hc, signalsTaken]
    omega
  | handler =>
    unfold Shutdown.step at h
    cases hp : s.handler with
    | receiving =>
      simp only [hp] at h
      by_cases hc : 0 < s.signalChan
      · simp only [hc, if_true, Option.some.injEq] at h
        subst h
        simp [signalsTaken, hp]
        omega
      · simp [hc] at h
    | stopping =>
      simp only [hp, Option.some.injEq] at h
      subst h
      simp [signalsTaken, hp, stopCalls_handlerBody]
    | sending =>
      simp only [hp] at h
      by_cases hw : s.startWaiting = true
      · simp only [hw, if_true, Option.some.injEq] at h
        subst h
        simp [signalsTaken, hp]
      · simp [hw] at h

theorem run_accounted (acts : List Action) :
    ∀ s s1 : Shutdown, Shutdown.run acts s = some s1 →
      stopCalls s1.world.trace + stopsAccounted s = stopCalls s.world.trace + stopsAccounted s1 ∧
        signalsTaken s1 ≤ signalsTaken s + acts.count Action.signal := by
  induction acts with
  | nil =>
    intro s s1 h
    simp only [Shutdown.run, Option.some.injEq] at h
    subst h
    simp
  | cons a acts ih =>
    intro s s1 h
    unfold Shutdown.run at h
    cases hs : s.step a with
    | none => simp [hs] at h
    | some s2 =>
      simp only [hs] at h
      have h1 := step_accounted a s s2 hs
      have h2 := step_taken a s s2 hs
      obtain ⟨h3, h4⟩ := ih s2 s1 h
      refine ⟨by omega, ?_⟩
      rw [List.count_cons]
      cases a <;> simp at h2 ⊢ <;> omega

/-- C7 as stated fails: `Start` has run and waits; two signals arrive, the second
while the goroutine is about to report completion.  Both are received by the
handler loop and `gb.cron.Stop()` has been called twice, the second time after
`Start` has returned. -/
theorem Start_two_signals_stop_twice :
    (Shutdown.run twoSignals (awaitSignals (Start envMarch1 sampleWorld))).map
        (fun s => (stopCalls s.world.trace, s.startWaiting, s.signalChan)) =
      some (2, false, 0) := by
  decide

/-- C7, amended.  From the state in which `Start` waits: one signal, once handled,
lets `Start` return after exactly one `Stop` call.  Along every schedule of
signal deliveries and handler steps, the number of `Stop` calls made so far is
one once `Start` has been released plus one while the goroutine stands at the
send; so no call is made before a signal is handled, exactly one has been made
when `Start` returns, a signal received after that brings a second one, and
there are never more than two, nor more calls than signals delivered. -/
theorem Shutdown_stop_calls (w : World) (acts : List Action) (s : Shutdown)
    (h : Shutdown.run acts (awaitSignals w) = some s) :
    (Shutdown.run oneSignal (awaitSignals w)).map
        (fun s1 => (s1.startWaiting, stopCalls s1.world.trace)) =
        some (false, stopCalls w.trace + 1) ∧
      stopCalls s.world.trace =
        stopCalls w.trace + (if s.startWaiting then 0 else 1)
          + (if s.handler = HandlerPc.sending then 1 else 0) ∧
      stopCalls s.world.trace ≤ stopCalls w.trace + 2 ∧
      stopCalls s.world.trace ≤ stopCalls w.trace + acts.count Action.signal := by
  obtain ⟨h1, h2⟩ := run_accounted acts _ _ h
  have e1 : stopsAccounted (awaitSignals w) = 0 := rfl
  have e2 : signalsTaken (awaitSignals w) = stopCalls w.trace := by
    simp [signalsTaken, awaitSignals]
  have e3 : (awaitSignals w).world = w := rfl
  rw [e1, e3] at h1
  rw [e2] at h2
  unfold stopsAccounted at h1
  unfold signalsTaken at h2
  refine ⟨?_, by omega, ?_, by omega⟩
  · simp [oneSignal, Shutdown.run, Shutdown.step, awaitSignals, signalChanCap,
      stopCalls_handlerBody]
  · by_cases hw : s.startWaiting = true <;> by_cases hp : s.handler = HandlerPc.sending <;>
      simp [hw, hp] at h1 <;> omega

/-- Witness of C7, amended: the schedule with two signals, after which two calls
have been made, `Start` has returned and the goroutine stands at the send. -/
theorem Shutdown_stop_calls_witness :
    Shutdown.run twoSignals (awaitSignals (Start envMarch1 sampleWorld)) =
        some afterTwoSignals ∧
      stopCalls afterTwoSignals.world.trace =
        stopCalls (Start envMarch1 sampleWorld).trace
          + (if afterTwoSignals.startWaiting then 0 else 1)
          + (if afterTwoSignals.handler = HandlerPc.sending then 1 else 0) :=
  ⟨by decide,
    (Shutdown_stop_calls (Start envMarch1 sampleWorld) twoSignals afterTwoSignals
      (by decide)).2.1⟩

end Birthday
